import Mathlib

/-!
Verification of the address-to-coordinates resolver
(`src/address_geocoordinate.py`).

The Python module has three helper functions — `clean_address`,
`geocode_photon`, `geocode_with_fallback` — and a batch loop over a list
of addresses.  We embed them shallowly:

* Strings are Lean `String`s; the character-level regex substitutions of
  `clean_address` are modelled as structural scans over `List Char` that
  reproduce Python's `re.sub` left-to-right greedy semantics for the two
  concrete patterns used (`\s*-\s*` and `\s+`).
* The network backend is an explicit parameter
  `net : String → Option PhotonResponse`: `none` stands for every failure
  mode that the Python `try/except` in `geocode_photon` swallows
  (timeout, HTTP error, unparsable JSON), `some r` for a parsed response.
  Coordinates are modelled as `Rat` (the resolver only passes the numeric
  values through; no arithmetic is performed on them).
* Python's `None`-able return values become `Option`.
-/

namespace AddressGeo

/-- Whitespace class used by both `str.strip()` and the `\s` regex class
in `clean_address` (ASCII whitespace). -/
def isWS (c : Char) : Bool :=
  c == ' ' || c == '\t' || c == '\n' || c == '\r' || c == '\x0b' || c == '\x0c'

/-- The character set of Python's `.strip(", ")`: comma and space. -/
def isCS (c : Char) : Bool :=
  c == ',' || c == ' '

/-- Python `s.strip(chars)`: drop characters satisfying `p` from both ends. -/
def pyStrip (p : Char → Bool) (s : List Char) : List Char :=
  ((s.dropWhile p).reverse.dropWhile p).reverse

/-- `re.sub(r"\s*-\s*", ", ", s)` as a left-to-right scan.
First argument: mode (`true` while swallowing the whitespace that the
greedy trailing `\s*` of a match consumes); second: the pending
whitespace run not yet known to precede a dash; third: the input.
A match of `\s*-\s*` happens exactly at a maximal whitespace run
followed by `-` (or at a bare `-`), consuming the run, the dash and the
following whitespace run, and is replaced by `", "`. -/
def subDashAux : Bool → List Char → List Char → List Char
  | false, pend, [] => pend
  | true, _, [] => []
  | false, pend, c :: cs =>
    if isWS c then subDashAux false (pend ++ [c]) cs
    else if c = '-' then ',' :: ' ' :: subDashAux true [] cs
    else pend ++ c :: subDashAux false [] cs
  | true, _, c :: cs =>
    if isWS c then subDashAux true [] cs
    else if c = '-' then ',' :: ' ' :: subDashAux true [] cs
    else c :: subDashAux false [] cs

/-- `re.sub(r"\s*-\s*", ", ", s)`. -/
def subDash (s : List Char) : List Char :=
  subDashAux false [] s

/-- `re.sub(r"\s+", " ", s)` as a scan; the flag records whether the
previous character was whitespace (i.e. we are inside a run already
replaced by a single space). -/
def collapseWSAux : Bool → List Char → List Char
  | _, [] => []
  | prev, c :: cs =>
    if isWS c then
      if prev then collapseWSAux true cs
      else ' ' :: collapseWSAux true cs
    else c :: collapseWSAux false cs

/-- `re.sub(r"\s+", " ", s)`. -/
def collapseWS (s : List Char) : List Char :=
  collapseWSAux false s

/-- `clean_address` from the source: replace dashes (with surrounding
whitespace) by `", "`, collapse whitespace runs, then
`.strip(", ").strip()` after an initial `.strip()`. -/
def clean_address (addr : String) : String :=
  let s0 := pyStrip isWS addr.toList
  let s1 := subDash s0
  let s2 := collapseWS s1
  let s3 := pyStrip isWS (pyStrip isCS s2)
  s3.asString

/-- GeoJSON-like geometry of a Photon feature: a coordinate list ordered
`[longitude, latitude, ...]`. -/
structure Geometry where
  coordinates : List Rat
deriving DecidableEq

/-- One feature of a Photon response. -/
structure Feature where
  geometry : Geometry
deriving DecidableEq

/-- A parsed Photon response: its (possibly empty) feature list. -/
structure PhotonResponse where
  features : List Feature
deriving DecidableEq

/-- `geocode_photon`: query the backend and return `(lat, lon)` or
nothing.  `net q = none` models every exception the `try/except`
swallows as well as a response whose feature list is missing/empty being
handled by the `data.get("features")` guard; a coordinate list with
fewer than two entries raises `IndexError`, also caught.  On success the
source returns `coords[1], coords[0]`. -/
def geocode_photon (net : String → Option PhotonResponse) (addr : String) :
    Option (Rat × Rat) :=
  match net addr with
  | none => none
  | some data =>
    match data.features with
    | [] => none
    | f :: _ =>
      match f.geometry.coordinates with
      | c0 :: c1 :: _ => some (c1, c0)
      | _ => none

/-- Python `addr_clean.split(",")`: split at every comma, keeping empty
segments. -/
def splitComma : List Char → List (List Char)
  | [] => [[]]
  | c :: cs =>
    if c = ',' then [] :: splitComma cs
    else
      match splitComma cs with
      | [] => [[c]]
      | g :: gs => (c :: g) :: gs

/-- `[p.strip() for p in addr_clean.split(",") if p.strip()]`:
the trimmed, non-empty comma-separated components. -/
def parts (addr_clean : String) : List (List Char) :=
  ((splitComma addr_clean.toList).map (pyStrip isWS)).filter (· ≠ [])

/-- `", ".join(parts[1:])`: the street+city fallback query. -/
def fallbackQuery (addr_clean : String) : String :=
  (List.intercalate [',', ' '] (parts addr_clean).tail).asString

/-- The record `(latitude, longitude, match_type, comment)` returned by
`geocode_with_fallback`. -/
structure ResolutionResult where
  latitude : Option Rat
  longitude : Option Rat
  match_type : String
  comment : String
deriving DecidableEq

/-- The all-tiers-failed result of `geocode_with_fallback`. -/
def notFoundResult : ResolutionResult :=
  ⟨none, none, "not found", "no match found"⟩

/-- `geocode_with_fallback`: try the full cleaned address, then (when
there are at least two components) the street+city fallback, else
report not found. -/
def geocode_with_fallback (net : String → Option PhotonResponse)
    (addr : String) : ResolutionResult :=
  let addr_clean := clean_address addr
  match geocode_photon net addr_clean with
  | some (lat, lon) => ⟨some lat, some lon, "full", "matched full address"⟩
  | none =>
    if (parts addr_clean).length ≥ 2 then
      let fallback_addr := fallbackQuery addr_clean
      match geocode_photon net fallback_addr with
      | some (lat2, lon2) =>
        ⟨some lat2, some lon2, "street+city",
          "matched using fallback: \x27" ++ fallback_addr ++ "\x27"⟩
      | none => notFoundResult
    else notFoundResult

/-- The list of backend queries `geocode_with_fallback` issues for
`addr`, in order, following exactly its control flow. -/
def queries (net : String → Option PhotonResponse) (addr : String) :
    List String :=
  let addr_clean := clean_address addr
  match geocode_photon net addr_clean with
  | some _ => [addr_clean]
  | none =>
    if (parts addr_clean).length ≥ 2 then
      [addr_clean, fallbackQuery addr_clean]
    else [addr_clean]

/-- One row of the batch results table (the dict appended per address in
the Multiple Addresses loop). -/
structure Row where
  address : String
  latitude : Option Rat
  longitude : Option Rat
  match_type : String
  comment : String
deriving DecidableEq

/-- The row built for one address in the batch loop. -/
def mkRow (net : String → Option PhotonResponse) (addr : String) : Row :=
  let r := geocode_with_fallback net addr
  ⟨addr, r.latitude, r.longitude, r.match_type, r.comment⟩

/-- The `for i, addr in enumerate(addresses)` loop: one appended row per
address, in order. -/
def batchLoop (net : String → Option PhotonResponse) :
    List String → List Row → List Row
  | [], results => results
  | a :: rest, results => batchLoop net rest (results ++ [mkRow net a])

/-- The batch results, starting from the empty `results` list. -/
def batchResults (net : String → Option PhotonResponse)
    (addresses : List String) : List Row :=
  batchLoop net addresses []

/-- Spec-side definition, written from the spec's words for comparison
with the code: the tier-"city" query is the last two components (or the
last one, if only one exists) joined with `", "`. -/
def spec_cityQuery (addr_clean : String) : String :=
  let ps := parts addr_clean
  (List.intercalate [',', ' '] (ps.drop (ps.length - 2))).asString

/-- Adjacency invariant after whitespace collapsing: no two consecutive
whitespace characters. -/
def Rw (a b : Char) : Prop := isWS a = false ∨ isWS b = false

/-- Backend for the C1 counterexample: succeeds only on `"C, D"`. -/
def netC1 : String → Option PhotonResponse :=
  fun q => if q = "C, D" then some ⟨[⟨⟨[5, 7]⟩⟩]⟩ else none

/-- Backend that always fails (timeout/error/empty feature list). -/
def netNoneC1 : String → Option PhotonResponse := fun _ => none

/-- Backend for the C4 witness: always fails. -/
def netNoneC4 : String → Option PhotonResponse := fun _ => none

/-- Backend for the C5 witness: succeeds on the full cleaned address. -/
def netFullC5 : String → Option PhotonResponse :=
  fun q => if q = "X" then some ⟨[⟨⟨[2, 3]⟩⟩]⟩ else none

/-- Backend for the C7 witness: one feature with coordinates `[55, 25]`
(longitude first). -/
def netGeoC7 : String → Option PhotonResponse :=
  fun _ => some ⟨[⟨⟨[55, 25]⟩⟩]⟩

/-- Backend for the C8 witness: irrelevant to normalisation, fails. -/
def netNoneC8 : String → Option PhotonResponse := fun _ => none

example : clean_address "A - B" = "A, B" := by decide
example : clean_address "  Al Masraf Tower - Hamdan St  " = "Al Masraf Tower, Hamdan St" := by decide
example : clean_address ",a  -  b, " = "a, b" := by decide
example : parts "A, B, C" = [['A'], ['B'], ['C']] := by decide
example : fallbackQuery "A, B, C" = "B, C" := by decide
example : spec_cityQuery "A, B, C, D" = "C, D" := by decide
example : spec_cityQuery "A" = "A" := by decide

/-- Case-analysis form of `geocode_with_fallback` (definitional). -/
theorem gwf_eq (net : String → Option PhotonResponse) (addr : String) :
    geocode_with_fallback net addr =
      match geocode_photon net (clean_address addr) with
      | some (lat, lon) => ⟨some lat, some lon, "full", "matched full address"⟩
      | none =>
        if (parts (clean_address addr)).length ≥ 2 then
          match geocode_photon net (fallbackQuery (clean_address addr)) with
          | some (lat2, lon2) =>
            ⟨some lat2, some lon2, "street+city",
              "matched using fallback: \x27" ++ fallbackQuery (clean_address addr) ++ "\x27"⟩
          | none => notFoundResult
        else notFoundResult := rfl

/-- Case-analysis form of `queries` (definitional). -/
theorem queries_eq (net : String → Option PhotonResponse) (addr : String) :
    queries net addr =
      match geocode_photon net (clean_address addr) with
      | some _ => [clean_address addr]
      | none =>
        if (parts (clean_address addr)).length ≥ 2 then
          [clean_address addr, fallbackQuery (clean_address addr)]
        else [clean_address addr] := rfl

/-- The batch loop only ever appends to its accumulator. -/
theorem batchLoop_eq (net : String → Option PhotonResponse) :
    ∀ (addrs : List String) (acc : List Row),
      batchLoop net addrs acc = acc ++ addrs.map (mkRow net)
  | [], acc => by simp [batchLoop]
  | a :: rest, acc => by
      rw [batchLoop, batchLoop_eq net rest]
      simp

/-- The batch results are the per-address rows, in input order. -/
theorem batchResults_eq_map (net : String → Option PhotonResponse)
    (addrs : List String) : batchResults net addrs = addrs.map (mkRow net) := by
  rw [batchResults, batchLoop_eq]
  simp

/-- C2: for every address and every backend behaviour (all failure modes
collapsed into `net` returning `none`), `geocode_with_fallback` is a
total function returning exactly one `ResolutionResult` — it is a Lean
`def`, so it never raises — and the worst possible outcome is the
explicit not-found record with null coordinates; every other outcome
carries non-null coordinates. -/
theorem resolver_total_worst_case_not_found
    (net : String → Option PhotonResponse) (addr : String) :
    geocode_with_fallback net addr = notFoundResult ∨
      ∃ la lo, (geocode_with_fallback net addr).latitude = some la ∧
        (geocode_with_fallback net addr).longitude = some lo := by
  rw [gwf_eq]
  cases h1 : geocode_photon net (clean_address addr) with
  | some p =>
    obtain ⟨la, lo⟩ := p
    exact Or.inr ⟨la, lo, rfl, rfl⟩
  | none =>
    by_cases h2 : (parts (clean_address addr)).length ≥ 2
    · rw [if_pos h2]
      cases h3 : geocode_photon net (fallbackQuery (clean_address addr)) with
      | some q =>
        obtain ⟨la, lo⟩ := q
        exact Or.inr ⟨la, lo, rfl, rfl⟩
      | none => exact Or.inl rfl
    · rw [if_neg h2]
      exact Or.inl rfl

/-- C10: the match level is always one of `"full"`, `"street+city"`,
`"not found"`, and the coordinates are both null exactly when the match
level is `"not found"`. -/
theorem match_type_closed_and_null_iff_not_found
    (net : String → Option PhotonResponse) (addr : String) :
    ((geocode_with_fallback net addr).match_type = "full" ∨
      (geocode_with_fallback net addr).match_type = "street+city" ∨
      (geocode_with_fallback net addr).match_type = "not found") ∧
    (((geocode_with_fallback net addr).latitude = none ∧
        (geocode_with_fallback net addr).longitude = none) ↔
      (geocode_with_fallback net addr).match_type = "not found") := by
  rw [gwf_eq]
  cases h1 : geocode_photon net (clean_address addr) with
  | some p =>
    obtain ⟨la, lo⟩ := p
    exact ⟨Or.inl rfl, by simp⟩
  | none =>
    by_cases h2 : (parts (clean_address addr)).length ≥ 2
    · rw [if_pos h2]
      cases h3 : geocode_photon net (fallbackQuery (clean_address addr)) with
      | some q =>
        obtain ⟨la, lo⟩ := q
        exact ⟨Or.inr (Or.inl rfl), by simp⟩
      | none => exact ⟨Or.inr (Or.inr rfl), by simp [notFoundResult]⟩
    · rw [if_neg h2]
      exact ⟨Or.inr (Or.inr rfl), by simp [notFoundResult]⟩

/-- C5: first success wins — if the backend matches the full cleaned
address, the resolver returns that match tagged `"full"` and the only
query issued is the full cleaned address (no fallback query). -/
theorem full_match_single_query
    (net : String → Option PhotonResponse) (addr : String) (la lo : Rat)
    (h : geocode_photon net (clean_address addr) = some (la, lo)) :
    geocode_with_fallback net addr =
      ⟨some la, some lo, "full", "matched full address"⟩ ∧
    queries net addr = [clean_address addr] := by
  rw [gwf_eq, queries_eq, h]
  exact ⟨rfl, rfl⟩

/-- Witness for C5 at a concrete backend and address. -/
theorem full_match_single_query_witness :
    geocode_photon netFullC5 (clean_address "X") = some (3, 2) ∧
    geocode_with_fallback netFullC5 "X" =
      ⟨some 3, some 2, "full", "matched full address"⟩ ∧
    queries netFullC5 "X" = [clean_address "X"] :=
  ⟨by decide, (full_match_single_query netFullC5 "X" 3 2 (by decide)).1,
    (full_match_single_query netFullC5 "X" 3 2 (by decide)).2⟩

/-- C4: when the full query fails and there are at least two components,
the (single) fallback query issued is exactly the component sequence
with the first component removed, rejoined with `", "` — nothing else is
dropped or reordered. -/
theorem fallback_query_drops_first_component
    (net : String → Option PhotonResponse) (addr : String)
    (h1 : geocode_photon net (clean_address addr) = none)
    (h2 : (parts (clean_address addr)).length ≥ 2) :
    queries net addr =
      [clean_address addr, fallbackQuery (clean_address addr)] ∧
    fallbackQuery (clean_address addr) =
      (List.intercalate [',', ' ']
        (parts (clean_address addr)).tail).asString := by
  rw [queries_eq, h1]
  exact ⟨by simp [h2], rfl⟩

/-- Witness for C4 at a concrete backend and address. -/
theorem fallback_query_drops_first_component_witness :
    geocode_photon netNoneC4 (clean_address "A, B, C") = none ∧
    (parts (clean_address "A, B, C")).length ≥ 2 ∧
    queries netNoneC4 "A, B, C" =
      [clean_address "A, B, C", fallbackQuery (clean_address "A, B, C")] ∧
    fallbackQuery (clean_address "A, B, C") =
      (List.intercalate [',', ' ']
        (parts (clean_address "A, B, C")).tail).asString :=
  ⟨by decide, by decide,
    (fallback_query_drops_first_component netNoneC4 "A, B, C" (by decide)
      (by decide)).1,
    (fallback_query_drops_first_component netNoneC4 "A, B, C" (by decide)
      (by decide)).2⟩

/-- C7: a well-formed feature-collection response carries coordinates
ordered `[longitude, latitude]`; `geocode_photon` swaps them and returns
`(latitude, longitude)`. -/
theorem photon_swaps_coordinates
    (net : String → Option PhotonResponse) (addr : String)
    (resp : PhotonResponse) (f : Feature) (fs : List Feature)
    (lon lat : Rat) (rest : List Rat)
    (h1 : net addr = some resp) (h2 : resp.features = f :: fs)
    (h3 : f.geometry.coordinates = lon :: lat :: rest) :
    geocode_photon net addr = some (lat, lon) := by
  simp only [geocode_photon, h1, h2, h3]

/-- Witness for C7 at a concrete response. -/
theorem photon_swaps_coordinates_witness :
    netGeoC7 "anywhere" = some ⟨[⟨⟨[55, 25]⟩⟩]⟩ ∧
    geocode_photon netGeoC7 "anywhere" = some (25, 55) :=
  ⟨rfl, photon_swaps_coordinates netGeoC7 "anywhere" ⟨[⟨⟨[55, 25]⟩⟩]⟩
    ⟨⟨[55, 25]⟩⟩ [] 55 25 [] rfl rfl rfl⟩

/-- C6: the batch loop yields one row per input address in input order
(the row list is a `map` over the addresses), so the total failure of
any one address — its row being the not-found record — leaves every
other address's row unchanged and never aborts the batch. -/
theorem batch_one_row_per_address
    (net : String → Option PhotonResponse) (addrs l1 l2 : List String)
    (a : String) :
    (batchResults net addrs).length = addrs.length ∧
    (batchResults net addrs).map Row.address = addrs ∧
    batchResults net (l1 ++ a :: l2) =
      batchResults net l1 ++ mkRow net a :: batchResults net l2 := by
  refine ⟨?_, ?_, ?_⟩
  · rw [batchResults_eq_map]
    simp
  · rw [batchResults_eq_map, List.map_map]
    have h : Row.address ∘ mkRow net = id := funext fun _ => rfl
    rw [h, List.map_id]
  · rw [batchResults_eq_map, batchResults_eq_map, batchResults_eq_map]
    simp

/-- C1 counterexample: for `"A, B, C, D"` with a backend that fails on
the full address and on the street+city fallback but would succeed on
the spec's tier-"city" query `"C, D"`, the code issues no third query
and returns the not-found record, not a result tagged `"city"`. -/
theorem no_city_tier_counterexample :
    geocode_photon netC1 (spec_cityQuery (clean_address "A, B, C, D")) =
      some (7, 5) ∧
    geocode_with_fallback netC1 "A, B, C, D" = notFoundResult ∧
    spec_cityQuery (clean_address "A, B, C, D") ∉
      queries netC1 "A, B, C, D" ∧
    (geocode_with_fallback netC1 "A, B, C, D").match_type ≠ "city" := by
  decide

/-- C1 amended: the resolver has only two tiers; when the full query and
the street+city query both fail it returns the not-found record, issues
at most two queries, and never returns a result tagged `"city"`. -/
theorem no_city_tier_amended
    (net : String → Option PhotonResponse) (addr : String)
    (h1 : geocode_photon net (clean_address addr) = none)
    (h2 : geocode_photon net (fallbackQuery (clean_address addr)) = none) :
    geocode_with_fallback net addr = notFoundResult ∧
    (queries net addr).length ≤ 2 ∧
    (geocode_with_fallback net addr).match_type ≠ "city" := by
  rw [gwf_eq, queries_eq, h1, h2]
  by_cases h3 : (parts (clean_address addr)).length ≥ 2
  · simp [h3, notFoundResult]
  · simp [h3, notFoundResult]

/-- Witness for the amended C1 at a concrete backend and address. -/
theorem no_city_tier_amended_witness :
    geocode_photon netNoneC1 (clean_address "A, B, C, D") = none ∧
    geocode_photon netNoneC1 (fallbackQuery (clean_address "A, B, C, D")) = none ∧
    geocode_with_fallback netNoneC1 "A, B, C, D" = notFoundResult ∧
    (queries netNoneC1 "A, B, C, D").length ≤ 2 ∧
    (geocode_with_fallback netNoneC1 "A, B, C, D").match_type ≠ "city" :=
  ⟨rfl, rfl,
    (no_city_tier_amended netNoneC1 "A, B, C, D" rfl rfl).1,
    (no_city_tier_amended netNoneC1 "A, B, C, D" rfl rfl).2.1,
    (no_city_tier_amended netNoneC1 "A, B, C, D" rfl rfl).2.2⟩

/-- On dash-free input, the dash substitution only flushes its pending
whitespace. -/
theorem subDashAux_no_dash :
    ∀ (s pend : List Char), '-' ∉ s → subDashAux false pend s = pend ++ s
  | [], pend, _ => by simp [subDashAux]
  | c :: cs, pend, h => by
    have hc : ¬(c = '-') := fun e => h (e ▸ List.mem_cons_self c cs)
    have hcs : '-' ∉ cs := fun m => h (List.mem_cons_of_mem c m)
    by_cases hw : isWS c
    · simp only [subDashAux, hw, if_true]
      rw [subDashAux_no_dash cs (pend ++ [c]) hcs]
      simp
    · simp only [subDashAux, hw, if_false, Bool.false_eq_true, if_neg hc]
      rw [subDashAux_no_dash cs [] hcs]
      simp

/-- The output of the dash substitution contains no dash. -/
theorem subDashAux_no_dash_out :
    ∀ (s : List Char) (mode : Bool) (pend : List Char), '-' ∉ pend →
      '-' ∉ subDashAux mode pend s
  | [], false, pend, hp => by simpa [subDashAux] using hp
  | [], true, _, _ => by simp [subDashAux]
  | c :: cs, mode, pend, hp => by
    have hws : isWS c = true → ¬(c = '-') := by
      intro hw e
      rw [e] at hw
      exact absurd hw (by decide)
    cases mode with
    | false =>
      by_cases hw : isWS c
      · simp only [subDashAux, hw, if_true]
        refine subDashAux_no_dash_out cs false (pend ++ [c]) ?_
        intro m
        rcases List.mem_append.mp m with m1 | m2
        · exact hp m1
        · exact hws hw (List.mem_singleton.mp m2).symm
      · by_cases hd : c = '-'
        · simp only [subDashAux, hw, Bool.false_eq_true, if_false, hd, if_true]
          intro m
          rcases List.mem_cons.mp m with e | m2
          · exact absurd e (by decide)
          rcases List.mem_cons.mp m2 with e | m3
          · exact absurd e (by decide)
          · exact subDashAux_no_dash_out cs true [] (by simp) m3
        · simp only [subDashAux, hw, Bool.false_eq_true, if_false, hd]
          intro m
          rcases List.mem_append.mp m with m1 | m2
          · exact hp m1
          rcases List.mem_cons.mp m2 with e | m3
          · exact hd e.symm
          · exact subDashAux_no_dash_out cs false [] (by simp) m3
    | true =>
      by_cases hw : isWS c
      · simp only [subDashAux, hw, if_true]
        exact subDashAux_no_dash_out cs true [] (by simp)
      · by_cases hd : c = '-'
        · simp only [subDashAux, hw, Bool.false_eq_true, if_false, hd, if_true]
          intro m
          rcases List.mem_cons.mp m with e | m2
          · exact absurd e (by decide)
          rcases List.mem_cons.mp m2 with e | m3
          · exact absurd e (by decide)
          · exact subDashAux_no_dash_out cs true [] (by simp) m3
        · simp only [subDashAux, hw, Bool.false_eq_true, if_false, hd]
          intro m
          rcases List.mem_cons.mp m with e | m3
          · exact hd e.symm
          · exact subDashAux_no_dash_out cs false [] (by simp) m3

/-- Every character emitted by whitespace collapsing is a space or an
input character. -/
theorem collapseWSAux_mem :
    ∀ (s : List Char) (prev : Bool) (c : Char),
      c ∈ collapseWSAux prev s → c ∈ s ∨ c = ' '
  | [], _, c, h => by simp [collapseWSAux] at h
  | d :: cs, prev, c, h => by
    by_cases hw : isWS d
    · cases prev with
      | true =>
        simp only [collapseWSAux, hw, if_true] at h
        rcases collapseWSAux_mem cs true c h with m | e
        · exact Or.inl (List.mem_cons_of_mem d m)
        · exact Or.inr e
      | false =>
        simp only [collapseWSAux, hw, if_true] at h
        rcases List.mem_cons.mp h with e | m
        · exact Or.inr e
        rcases collapseWSAux_mem cs true c m with m2 | e
        · exact Or.inl (List.mem_cons_of_mem d m2)
        · exact Or.inr e
    · simp only [collapseWSAux, hw, Bool.false_eq_true, if_false] at h
      rcases List.mem_cons.mp h with e | m
      · exact Or.inl (e ▸ List.mem_cons_self d cs)
      rcases collapseWSAux_mem cs false c m with m2 | e
      · exact Or.inl (List.mem_cons_of_mem d m2)
      · exact Or.inr e

/-- After whitespace collapsing, every whitespace character is a plain
space. -/
theorem collapseWSAux_wsSpace :
    ∀ (s : List Char) (prev : Bool) (c : Char),
      c ∈ collapseWSAux prev s → isWS c = true → c = ' '
  | [], _, c, h, _ => by simp [collapseWSAux] at h
  | d :: cs, prev, c, h, hwc => by
    by_cases hw : isWS d
    · cases prev with
      | true =>
        simp only [collapseWSAux, hw, if_true] at h
        exact collapseWSAux_wsSpace cs true c h hwc
      | false =>
        simp only [collapseWSAux, hw, if_true] at h
        rcases List.mem_cons.mp h with e | m
        · exact e
        · exact collapseWSAux_wsSpace cs true c m hwc
    · simp only [collapseWSAux, hw, Bool.false_eq_true, if_false] at h
      rcases List.mem_cons.mp h with e | m
      · rw [e] at hwc
        exact absurd hwc (by simp [hw])
      · exact collapseWSAux_wsSpace cs false c m hwc

/-- In swallowing mode, the collapsed output never starts with
whitespace. -/
theorem collapseWSAux_head_true :
    ∀ (s : List Char) (c : Char),
      (collapseWSAux true s).head? = some c → isWS c = false
  | [], c, h => by simp [collapseWSAux] at h
  | d :: cs, c, h => by
    by_cases hw : isWS d
    · simp only [collapseWSAux, hw, if_true] at h
      exact collapseWSAux_head_true cs c h
    · simp only [collapseWSAux, hw, Bool.false_eq_true, if_false,
        List.head?_cons, Option.some.injEq] at h
      rw [← h]
      exact Bool.not_eq_true _ ▸ hw

/-- The collapsed output never has two consecutive whitespace
characters. -/
theorem collapseWSAux_chain :
    ∀ (s : List Char) (prev : Bool), List.Chain' Rw (collapseWSAux prev s)
  | [], _ => by simp [collapseWSAux]
  | d :: cs, prev => by
    by_cases hw : isWS d
    · cases prev with
      | true =>
        simp only [collapseWSAux, hw, if_true]
        exact collapseWSAux_chain cs true
      | false =>
        simp only [collapseWSAux, hw, if_true]
        refine List.chain'_cons'.mpr ⟨?_, collapseWSAux_chain cs true⟩
        intro y hy
        exact Or.inr (collapseWSAux_head_true cs y hy)
    · simp only [collapseWSAux, hw, Bool.false_eq_true, if_false]
      refine List.chain'_cons'.mpr ⟨?_, collapseWSAux_chain cs false⟩
      intro y _
      exact Or.inl (Bool.not_eq_true _ ▸ hw)

/-- Whitespace collapsing is the identity on strings whose whitespace is
already single plain spaces. -/
theorem collapseWSAux_id :
    ∀ (s : List Char), (∀ c ∈ s, isWS c = true → c = ' ') →
      List.Chain' Rw s →
      collapseWSAux false s = s ∧
        ((∀ c ∈ s.head?, isWS c = false) → collapseWSAux true s = s)
  | [], _, _ => ⟨rfl, fun _ => rfl⟩
  | d :: cs, hs, hc => by
    have hcs : ∀ c ∈ cs, isWS c = true → c = ' ' :=
      fun c m => hs c (List.mem_cons_of_mem d m)
    have hcc : List.Chain' Rw cs := (List.chain'_cons'.mp hc).2
    constructor
    · by_cases hw : isWS d
      · have hd : d = ' ' := hs d (List.mem_cons_self d cs) hw
        simp only [collapseWSAux, hw, if_true, Bool.false_eq_true, if_false]
        have hhead : ∀ c ∈ cs.head?, isWS c = false := by
          intro c hcm
          rcases (List.chain'_cons'.mp hc).1 c hcm with h1 | h2
          · exact absurd hw (by simp [h1])
          · exact h2
        rw [(collapseWSAux_id cs hcs hcc).2 hhead, hd]
      · simp only [collapseWSAux, hw, Bool.false_eq_true, if_false]
        rw [(collapseWSAux_id cs hcs hcc).1]
    · intro hhead
      have hw : isWS d = false := hhead d (by simp)
      simp only [collapseWSAux, hw, Bool.false_eq_true, if_false]
      rw [(collapseWSAux_id cs hcs hcc).1]

/-- Characters of a stripped string come from the original. -/
theorem pyStrip_mem (p : Char → Bool) (s : List Char) (c : Char)
    (h : c ∈ pyStrip p s) : c ∈ s := by
  rw [pyStrip] at h
  rw [List.mem_reverse] at h
  have h1 := (List.dropWhile_sublist p).subset h
  rw [List.mem_reverse] at h1
  exact (List.dropWhile_sublist p).subset h1

/-- Stripping preserves the no-consecutive-whitespace invariant. -/
theorem pyStrip_chain (p : Char → Bool) (s : List Char)
    (h : List.Chain' Rw s) : List.Chain' Rw (pyStrip p s) := by
  have hrev : ∀ (l : List Char), List.Chain' Rw l → List.Chain' Rw l.reverse := by
    intro l hl
    exact List.chain'_reverse.mpr (hl.imp fun a b r => Or.symm r)
  have h1 : List.Chain' Rw (s.dropWhile p) := h.suffix (List.dropWhile_suffix p)
  have h2 := hrev _ h1
  have h3 : List.Chain' Rw ((s.dropWhile p).reverse.dropWhile p) :=
    h2.suffix (List.dropWhile_suffix p)
  exact hrev _ h3

/-- The head of `dropWhile p` never satisfies `p`. -/
theorem head?_dropWhile_false (p : Char → Bool) (l : List Char) (c : Char)
    (h : (l.dropWhile p).head? = some c) : p c = false := by
  have hh := List.head?_dropWhile_not p l
  rw [h] at hh
  exact hh

/-- The last character of a stripped string never satisfies `p`. -/
theorem pyStrip_getLast (p : Char → Bool) (s : List Char) (c : Char)
    (h : (pyStrip p s).getLast? = some c) : p c = false := by
  rw [pyStrip, List.getLast?_reverse] at h
  exact head?_dropWhile_false p _ c h

/-- The first character of a stripped string never satisfies `p`. -/
theorem pyStrip_head (p : Char → Bool) (s : List Char) (c : Char)
    (h : (pyStrip p s).head? = some c) : p c = false := by
  rw [pyStrip, List.head?_reverse] at h
  have hsplit := List.takeWhile_append_dropWhile p (s.dropWhile p).reverse
  have h2 : ((s.dropWhile p).reverse).getLast? = some c := by
    rw [← hsplit, List.getLast?_append, h, Option.or_some]
  rw [List.getLast?_reverse] at h2
  exact head?_dropWhile_false p s c h2

/-- Stripping is the identity when neither end satisfies `p`. -/
theorem pyStrip_id (p : Char → Bool) (s : List Char)
    (hh : ∀ c ∈ s.head?, p c = false) (hl : ∀ c ∈ s.getLast?, p c = false) :
    pyStrip p s = s := by
  have h1 : s.dropWhile p = s := by
    cases s with
    | nil => rfl
    | cons d cs =>
      have := hh d (by simp)
      simp [List.dropWhile_cons, this]
  have h2 : s.reverse.dropWhile p = s.reverse := by
    cases hr : s.reverse with
    | nil => rfl
    | cons d ds =>
      have hd : s.getLast? = some d := by
        rw [← List.head?_reverse, hr, List.head?_cons]
      have := hl d hd
      simp [List.dropWhile_cons, this]
  rw [pyStrip, h1, h2, List.reverse_reverse]

/-- Every stage of `clean_address` is the identity on the output of the
whole pipeline: once a string is dash-free, has only single plain spaces
as whitespace, and its comma/space strip is taken, nothing changes. -/
theorem clean_fixed_point (u2 : List Char)
    (hdash : '-' ∉ u2) (hws : ∀ c ∈ u2, isWS c = true → c = ' ')
    (hchain : List.Chain' Rw u2) :
    pyStrip isWS (pyStrip isCS u2) = pyStrip isCS u2 ∧
    subDash (pyStrip isCS u2) = pyStrip isCS u2 ∧
    collapseWS (pyStrip isCS u2) = pyStrip isCS u2 ∧
    pyStrip isCS (pyStrip isCS u2) = pyStrip isCS u2 := by
  have hmem : ∀ c ∈ pyStrip isCS u2, c ∈ u2 := fun c m => pyStrip_mem isCS u2 c m
  have hwsU : ∀ c ∈ pyStrip isCS u2, isWS c = true → c = ' ' :=
    fun c m hw => hws c (hmem c m) hw
  have hheadCS : ∀ c ∈ (pyStrip isCS u2).head?, isCS c = false :=
    fun c hc => pyStrip_head isCS u2 c hc
  have hlastCS : ∀ c ∈ (pyStrip isCS u2).getLast?, isCS c = false :=
    fun c hc => pyStrip_getLast isCS u2 c hc
  have hnotWS : ∀ c ∈ pyStrip isCS u2, isCS c = false → isWS c = false := by
    intro c hm hcs
    cases hb : isWS c with
    | false => rfl
    | true =>
      have he : c = ' ' := hwsU c hm hb
      rw [he] at hcs
      exact absurd hcs (by decide)
  have hheadWS : ∀ c ∈ (pyStrip isCS u2).head?, isWS c = false :=
    fun c hc => hnotWS c (List.mem_of_mem_head? hc) (hheadCS c hc)
  have hlastWS : ∀ c ∈ (pyStrip isCS u2).getLast?, isWS c = false :=
    fun c hc => hnotWS c (List.mem_of_mem_getLast? hc) (hlastCS c hc)
  have hchainU : List.Chain' Rw (pyStrip isCS u2) := pyStrip_chain isCS u2 hchain
  refine ⟨?_, ?_, ?_, ?_⟩
  · exact pyStrip_id isWS _ hheadWS hlastWS
  · have hd : '-' ∉ pyStrip isCS u2 := fun m => hdash (hmem _ m)
    rw [subDash, subDashAux_no_dash _ [] hd]
    simp
  · exact (collapseWSAux_id _ hwsU hchainU).1
  · exact pyStrip_id isCS _ hheadCS hlastCS

/-- C3: address normalisation is idempotent —
`clean_address (clean_address x) = clean_address x` for every string. -/
theorem clean_address_idempotent (s : String) :
    clean_address (clean_address s) = clean_address s := by
  have hdash : '-' ∉ collapseWS (subDash (pyStrip isWS s.toList)) := by
    intro m
    rcases collapseWSAux_mem _ false '-' m with m2 | e
    · exact subDashAux_no_dash_out _ false [] (by simp) m2
    · exact absurd e (by decide)
  have hws : ∀ c ∈ collapseWS (subDash (pyStrip isWS s.toList)),
      isWS c = true → c = ' ' :=
    fun c m hw => collapseWSAux_wsSpace _ false c m hw
  have hchain : List.Chain' Rw (collapseWS (subDash (pyStrip isWS s.toList))) :=
    collapseWSAux_chain _ false
  obtain ⟨h1, h2, h3, h4⟩ := clean_fixed_point _ hdash hws hchain
  have e1 : clean_address s =
      (pyStrip isCS (collapseWS (subDash (pyStrip isWS s.toList)))).asString := by
    show (pyStrip isWS (pyStrip isCS (collapseWS (subDash
      (pyStrip isWS s.toList))))).asString = _
    rw [h1]
  rw [e1]
  show (pyStrip isWS (pyStrip isCS (collapseWS (subDash (pyStrip isWS
    (pyStrip isCS (collapseWS (subDash (pyStrip isWS s.toList))))))))).asString =
    (pyStrip isCS (collapseWS (subDash (pyStrip isWS s.toList)))).asString
  rw [h1, h2, h3, h4, h1]

/-- An `Option.all` bound transfers to its member. -/
theorem opt_all_not_ws (o : Option Char)
    (h : o.all (fun c => !isWS c) = true) : ∀ c ∈ o, isWS c = false := by
  intro c hc
  rw [Option.mem_def] at hc
  rw [hc] at h
  simpa using h

/-- A whitespace run followed by a dash is consumed whole and replaced,
discarding the pending whitespace. -/
theorem subDashAux_ws_dash :
    ∀ (w1 pend rest : List Char), w1.all isWS = true →
      subDashAux false pend (w1 ++ '-' :: rest) =
        ',' :: ' ' :: subDashAux true [] rest
  | [], pend, rest, _ => by
    have hw : isWS '-' = false := by decide
    simp [subDashAux, hw]
  | c :: w1, pend, rest, h => by
    rw [List.all_cons, Bool.and_eq_true] at h
    simp only [List.cons_append, subDashAux, h.1, if_true]
    exact subDashAux_ws_dash w1 (pend ++ [c]) rest h.2

/-- In swallowing mode a whitespace run is dropped entirely. -/
theorem subDashAux_swallow :
    ∀ (w2 rest : List Char), w2.all isWS = true →
      subDashAux true [] (w2 ++ rest) = subDashAux true [] rest
  | [], _, _ => rfl
  | c :: w2, rest, h => by
    rw [List.all_cons, Bool.and_eq_true] at h
    simp only [List.cons_append, subDashAux, h.1, if_true]
    exact subDashAux_swallow w2 rest h.2

/-- When the next character is not whitespace, swallowing mode and
normal mode with an empty pending run agree. -/
theorem subDashAux_mode (b : List Char)
    (h : ∀ c ∈ b.head?, isWS c = false) :
    subDashAux true [] b = subDashAux false [] b := by
  cases b with
  | nil => rfl
  | cons c cs =>
    have hw : isWS c = false := h c (by simp)
    have hwd : isWS '-' = false := by decide
    by_cases hd : c = '-'
    · simp [subDashAux, hw, hd, hwd]
    · simp [subDashAux, hw, hd, hwd]

/-- One scan step on a whitespace character in normal mode. -/
theorem subDashAux_cons_ws (c : Char) (pend cs : List Char)
    (hw : isWS c = true) :
    subDashAux false pend (c :: cs) = subDashAux false (pend ++ [c]) cs := by
  simp only [subDashAux, hw, if_true]

/-- One scan step on a non-whitespace, non-dash character in normal
mode. -/
theorem subDashAux_cons_other (c : Char) (pend cs : List Char)
    (hw : isWS c = false) (hd : ¬(c = '-')) :
    subDashAux false pend (c :: cs) = pend ++ c :: subDashAux false [] cs := by
  simp only [subDashAux, hw, Bool.false_eq_true, if_false, if_neg hd]

/-- The dash substitution around one hyphen: a dash-free prefix not
ending in whitespace, the whitespace-wrapped dash, and the remainder not
starting with whitespace. -/
theorem subDashAux_split :
    ∀ (a pend w1 w2 b : List Char), '-' ∉ a →
      (∀ c ∈ a.getLast?, isWS c = false) →
      w1.all isWS = true → w2.all isWS = true →
      (∀ c ∈ b.head?, isWS c = false) → (a = [] → pend = []) →
      subDashAux false pend (a ++ w1 ++ '-' :: (w2 ++ b)) =
        pend ++ a ++ ',' :: ' ' :: subDashAux false [] b
  | [], pend, w1, w2, b, _, _, h3, h4, h5, hp => by
    rw [hp rfl]
    simp only [List.nil_append]
    rw [subDashAux_ws_dash w1 [] _ h3, subDashAux_swallow w2 b h4,
      subDashAux_mode b h5]
  | c :: a', pend, w1, w2, b, h1, h2, h3, h4, h5, _ => by
    have hc : ¬(c = '-') := fun e => h1 (e ▸ List.mem_cons_self c a')
    have h1' : '-' ∉ a' := fun m => h1 (List.mem_cons_of_mem c m)
    by_cases hw : isWS c
    · cases a' with
      | nil =>
        have := h2 c (by simp)
        rw [this] at hw
        exact absurd hw (by simp)
      | cons d cs' =>
        have h2' : ∀ x ∈ (d :: cs').getLast?, isWS x = false := by
          intro x hx
          exact h2 x (by rw [List.getLast?_cons_cons]; exact hx)
        rw [show ((c :: d :: cs') ++ w1 ++ '-' :: (w2 ++ b)) =
          c :: ((d :: cs') ++ w1 ++ '-' :: (w2 ++ b)) by simp]
        rw [subDashAux_cons_ws c pend _ hw]
        rw [subDashAux_split (d :: cs') (pend ++ [c]) w1 w2 b h1' h2' h3 h4 h5
          (fun h => absurd h (by simp))]
        simp
    · have h2' : ∀ x ∈ a'.getLast?, isWS x = false := by
        cases a' with
        | nil => simp
        | cons d cs' =>
          intro x hx
          exact h2 x (by rw [List.getLast?_cons_cons]; exact hx)
      have hw2 : isWS c = false := by simpa using hw
      rw [show ((c :: a') ++ w1 ++ '-' :: (w2 ++ b)) =
        c :: (a' ++ w1 ++ '-' :: (w2 ++ b)) by simp]
      rw [subDashAux_cons_other c pend _ hw2 hc]
      rw [subDashAux_split a' [] w1 w2 b h1' h2' h3 h4 h5 (fun _ => rfl)]
      simp

/-- C8: normalisation replaces a hyphen, together with the whitespace
around it, by a comma and a single space; in particular
`clean_address "A - B" = "A, B"`. -/
theorem hyphen_to_comma_space :
    (∀ a w1 w2 b : List Char, '-' ∉ a →
      a.getLast?.all (fun c => !isWS c) = true →
      w1.all isWS = true → w2.all isWS = true →
      b.head?.all (fun c => !isWS c) = true →
      subDash (a ++ w1 ++ '-' :: (w2 ++ b)) = a ++ ',' :: ' ' :: subDash b) ∧
    clean_address "A - B" = "A, B" := by
  constructor
  · intro a w1 w2 b h1 h2 h3 h4 h5
    rw [subDash, subDash,
      subDashAux_split a [] w1 w2 b h1 (opt_all_not_ws _ h2) h3 h4
        (opt_all_not_ws _ h5) (fun _ => rfl)]
    simp
  · decide

/-- Witness for C8: the hyphen of `"A - B"` becomes `", "`. -/
theorem hyphen_to_comma_space_witness :
    subDash (['A'] ++ [' '] ++ '-' :: ([' '] ++ ['B'])) =
      ['A'] ++ ',' :: ' ' :: subDash ['B'] ∧
    clean_address "A - B" = "A, B" :=
  ⟨hyphen_to_comma_space.1 ['A'] [' '] [' '] ['B'] (by decide) (by decide)
      (by decide) (by decide) (by decide),
    hyphen_to_comma_space.2⟩

end AddressGeo
